import Mathlib

/-!
Verification of the blueshift-anchor-escrow program.

The source consists of three instruction handlers (make, take, refund)
over one persistent account type (Escrow) plus a token vault.  We embed
the program shallowly: the slice of ledger state the program touches is a
record of balances and optional accounts, each instruction is a total
function from that state to an Except value carrying the successor state
and the ordered list of externally visible effects, and the external
program-derived-address service is an abstract function parameter.
An error result models the host rolling the whole transaction back.
-/

namespace EscrowSpec

/-- A public key on the ledger, abstracted to a natural number. -/
abbrev Pubkey := Nat

/-- Little-endian byte expansion of a natural number at a fixed width. -/
def leBytes : Nat → Nat → List Nat
  | 0, _ => []
  | n + 1, v => v % 256 :: leBytes n (v / 256)

/-- Value denoted by a little-endian byte list (inverse of leBytes). -/
def leVal : List Nat → Nat
  | [] => 0
  | b :: bs => b + 256 * leVal bs

/-- The raw 32 bytes of a public key, as produced by key().as_ref(). -/
def pubkeyBytes (k : Pubkey) : List Nat := leBytes 32 k

/-- seed.to_le_bytes() for a u64 value. -/
def u64le (s : Nat) : List Nat := leBytes 8 (s % 2 ^ 64)

/-- The six ASCII bytes of the namespace tag used in the PDA seeds. -/
def escrowTag : List Nat := [101, 115, 99, 114, 111, 119]

/-- state.rs: the Escrow account data, field for field. -/
structure Escrow where
  seed : Nat
  maker : Pubkey
  mint_a : Pubkey
  mint_b : Pubkey
  receive : Nat
  bump : Nat
  deriving DecidableEq, Repr

/-- Field ranges imposed by the Rust types (u64 fields, u8 bump,
    32-byte keys). -/
def Escrow.wf (e : Escrow) : Prop :=
  e.seed < 2 ^ 64 ∧ e.maker < 2 ^ 256 ∧ e.mint_a < 2 ^ 256 ∧
    e.mint_b < 2 ^ 256 ∧ e.receive < 2 ^ 64 ∧ e.bump < 2 ^ 8

instance (e : Escrow) : Decidable e.wf := by
  unfold Escrow.wf; infer_instance

/-- state.rs with the account attribute discriminator = 1: the persisted
    encoding is the single discriminator byte 1 followed by the borsh
    encoding of the six fields in declaration order. -/
def serializeEscrow (e : Escrow) : List Nat :=
  [1] ++ leBytes 8 e.seed ++ pubkeyBytes e.maker ++ pubkeyBytes e.mint_a ++
    pubkeyBytes e.mint_b ++ leBytes 8 e.receive ++ leBytes 1 e.bump

/-- errors.rs: the program error codes referenced from the handlers. -/
inductive EscrowError
  | InvalidAmount
  | InvalidMaker
  | InvalidMintA
  | InvalidMintB
  deriving DecidableEq, Repr

/-- Failures an operation can abort with: a program error from src, or a
    failure propagated from the external account and token services. -/
inductive Err
  | program (e : EscrowError)
  | accountInUse
  | accountMissing
  | insufficientFunds
  | closeNonEmpty
  deriving DecidableEq, Repr

/-- The accounts the three operations move balances between. -/
inductive Acct
  | makerAtaA
  | makerAtaB
  | takerAtaA
  | takerAtaB
  | vault
  | escrowRecord
  | makerWallet
  deriving DecidableEq, Repr

/-- Who authorizes a token movement: a private-key signer, or a
    program-derived address presented through its seed list. -/
inductive Authority
  | signer (k : Pubkey)
  | pda (seeds : List (List Nat))
  deriving DecidableEq, Repr

/-- One externally visible effect of an operation, listed in execution
    order by the operation functions below. -/
inductive Effect
  | transfer (src dst : Acct) (mint : Pubkey) (amount : Nat) (auth : Authority)
  | close (acct dest : Acct)
  deriving DecidableEq, Repr

/-- The slice of ledger state the program touches: the escrow record
    account (its address and data), the vault token account (its balance
    when it exists), and the token balances of the two parties. -/
structure Chain where
  record : Option (Pubkey × Escrow)
  vault : Option Nat
  makerAtaA : Nat
  makerAtaB : Nat
  takerAtaA : Nat
  takerAtaB : Nat
  deriving DecidableEq, Repr

/-- transfer_checked on the debit side: fails when the source balance is
    short of the requested amount. -/
def tokenDebit (bal amount : Nat) : Except Err Nat :=
  if bal < amount then .error .insufficientFunds else .ok (bal - amount)

/-- close_account: the token program closes only an emptied account. -/
def tokenClose (bal : Nat) : Except Err Unit :=
  if bal = 0 then .ok () else .error .closeNonEmpty

/-- make.rs escrow attribute: seeds = tag, maker key bytes, seed
    little-endian bytes. -/
def escrowSeeds (maker : Pubkey) (seed : Nat) : List (List Nat) :=
  [escrowTag, pubkeyBytes maker, u64le seed]

/-- take.rs signer_seeds: the same components, read back from the stored
    record, with the cached bump appended. -/
def takeSignerSeeds (makerKey : Pubkey) (e : Escrow) : List (List Nat) :=
  [escrowTag, pubkeyBytes makerKey, u64le e.seed, [e.bump]]

/-- refund.rs signer_seeds, transcribed from that file. -/
def refundSignerSeeds (makerKey : Pubkey) (e : Escrow) : List (List Nat) :=
  [escrowTag, pubkeyBytes makerKey, u64le e.seed, [e.bump]]

/-- take.rs and refund.rs escrow attribute: the seed list the account
    constraint re-derives the record address from, with bump =
    escrow.bump appended. -/
def constraintSeedsWithBump (makerKey : Pubkey) (e : Escrow) : List (List Nat) :=
  [escrowTag, pubkeyBytes makerKey, u64le e.seed] ++ [[e.bump]]

/-- Arguments of the make instruction (all u64 in src). -/
structure MakeArgs where
  seed : Nat
  receive : Nat
  amount : Nat
  deriving DecidableEq, Repr

/-- make.rs: account creation (the escrow PDA account and the vault ATA
    must both be fresh), then the handler: the two require_gt amount
    checks, populate_escrow, deposit_tokens.  The parameter derive is the
    external find_program_address service, returning address and bump for
    a seed list. -/
def makeOp (derive : List (List Nat) → Pubkey × Nat) (c : Chain)
    (maker mintA mintB : Pubkey) (a : MakeArgs) :
    Except Err (Chain × List Effect) :=
  if c.record.isSome then .error .accountInUse
  else if c.vault.isSome then .error .accountInUse
  else
    let ab := derive (escrowSeeds maker a.seed)
    if a.receive = 0 then .error (.program .InvalidAmount)
    else if a.amount = 0 then .error (.program .InvalidAmount)
    else
      match tokenDebit c.makerAtaA a.amount with
      | .error er => .error er
      | .ok rest =>
        .ok ({ record := some (ab.1, ⟨a.seed, maker, mintA, mintB, a.receive, ab.2⟩),
               vault := some a.amount,
               makerAtaA := rest, makerAtaB := c.makerAtaB,
               takerAtaA := c.takerAtaA, takerAtaB := c.takerAtaB },
             [.transfer .makerAtaA .vault mintA a.amount (.signer maker)])

/-- take.rs: the has_one checks of the Take accounts struct with their
    custom errors, in declaration order, then the handler:
    transfer_to_maker, withdraw_and_close_vault, and the close = maker
    attribute on the record. -/
def takeOp (c : Chain) (takerKey makerKey mintAKey mintBKey : Pubkey) :
    Except Err (Chain × List Effect) :=
  match c.record with
  | none => .error .accountMissing
  | some (_, e) =>
    if e.maker ≠ makerKey then .error (.program .InvalidMaker)
    else if e.mint_a ≠ mintAKey then .error (.program .InvalidMintA)
    else if e.mint_b ≠ mintBKey then .error (.program .InvalidMintB)
    else match c.vault with
      | none => .error .accountMissing
      | some vaultAmt =>
        match tokenDebit c.takerAtaB e.receive with
        | .error er => .error er
        | .ok takerBRest =>
          match tokenDebit vaultAmt vaultAmt with
          | .error er => .error er
          | .ok vaultRest =>
            match tokenClose vaultRest with
            | .error er => .error er
            | .ok _ =>
              .ok ({ record := none, vault := none,
                     makerAtaA := c.makerAtaA,
                     makerAtaB := c.makerAtaB + e.receive,
                     takerAtaA := c.takerAtaA + vaultAmt,
                     takerAtaB := takerBRest },
                   [.transfer .takerAtaB .makerAtaB mintBKey e.receive
                      (.signer takerKey),
                    .transfer .vault .takerAtaA mintAKey vaultAmt
                      (.pda (takeSignerSeeds makerKey e)),
                    .close .vault .makerWallet,
                    .close .escrowRecord .makerWallet])

/-- refund.rs: the has_one checks of the Refund accounts struct, then the
    handler: the amount is read from the vault, the transfer back to the
    maker runs only when it is positive, and the vault and the record are
    closed unconditionally with credit to the maker. -/
def refundOp (c : Chain) (makerKey mintAKey : Pubkey) :
    Except Err (Chain × List Effect) :=
  match c.record with
  | none => .error .accountMissing
  | some (_, e) =>
    if e.maker ≠ makerKey then .error (.program .InvalidMaker)
    else if e.mint_a ≠ mintAKey then .error (.program .InvalidMintA)
    else match c.vault with
      | none => .error .accountMissing
      | some amount =>
        if 0 < amount then
          match tokenDebit amount amount with
          | .error er => .error er
          | .ok vaultRest =>
            match tokenClose vaultRest with
            | .error er => .error er
            | .ok _ =>
              .ok ({ record := none, vault := none,
                     makerAtaA := c.makerAtaA + amount,
                     makerAtaB := c.makerAtaB,
                     takerAtaA := c.takerAtaA, takerAtaB := c.takerAtaB },
                   [.transfer .vault .makerAtaA mintAKey amount
                      (.pda (refundSignerSeeds makerKey e)),
                    .close .vault .makerWallet,
                    .close .escrowRecord .makerWallet])
        else
          match tokenClose amount with
          | .error er => .error er
          | .ok _ =>
            .ok ({ record := none, vault := none,
                   makerAtaA := c.makerAtaA, makerAtaB := c.makerAtaB,
                   takerAtaA := c.takerAtaA, takerAtaB := c.takerAtaB },
                 [.close .vault .makerWallet,
                  .close .escrowRecord .makerWallet])

/-- Transaction-level result of a make request: the host keeps the new
    state on success and rolls back to the pre-state on any abort. -/
def applyMake (derive : List (List Nat) → Pubkey × Nat) (c : Chain)
    (maker mintA mintB : Pubkey) (a : MakeArgs) : Chain :=
  match makeOp derive c maker mintA mintB a with
  | .ok r => r.1
  | .error _ => c

/-- Transaction-level result of a take request. -/
def applyTake (c : Chain) (takerKey makerKey mintAKey mintBKey : Pubkey) :
    Chain :=
  match takeOp c takerKey makerKey mintAKey mintBKey with
  | .ok r => r.1
  | .error _ => c

/-- Transaction-level result of a refund request. -/
def applyRefund (c : Chain) (makerKey mintAKey : Pubkey) : Chain :=
  match refundOp c makerKey mintAKey with
  | .ok r => r.1
  | .error _ => c

/-- States reachable from an empty ledger (no escrow record, no vault,
    any balances) by any sequence of the three operations. -/
inductive Reach (derive : List (List Nat) → Pubkey × Nat) : Chain → Prop
  | start (mA mB tA tB : Nat) : Reach derive ⟨none, none, mA, mB, tA, tB⟩
  | make (c : Chain) (maker mintA mintB : Pubkey) (a : MakeArgs) :
      Reach derive c → Reach derive (applyMake derive c maker mintA mintB a)
  | take (c : Chain) (tk mk ma mb : Pubkey) :
      Reach derive c → Reach derive (applyTake c tk mk ma mb)
  | refund (c : Chain) (mk ma : Pubkey) :
      Reach derive c → Reach derive (applyRefund c mk ma)

theorem leBytes_length (n : Nat) : ∀ v : Nat, (leBytes n v).length = n := by
  induction n with
  | zero => intro v; rfl
  | succ n ih => intro v; simp [leBytes, ih]

theorem leVal_leBytes (n : Nat) :
    ∀ v : Nat, v < 256 ^ n → leVal (leBytes n v) = v := by
  induction n with
  | zero =>
    intro v h
    simp [leBytes, leVal]
    omega
  | succ n ih =>
    intro v h
    have hd : v / 256 < 256 ^ n := by
      rw [Nat.div_lt_iff_lt_mul (by norm_num : 0 < 256)]
      calc v < 256 ^ (n + 1) := h
        _ = 256 ^ n * 256 := by rw [pow_succ]
    simp [leBytes, leVal, ih (v / 256) hd]
    omega

theorem makeOp_ok (derive : List (List Nat) → Pubkey × Nat) (c : Chain)
    (maker mintA mintB : Pubkey) (a : MakeArgs)
    (hrec : c.record = none) (hv : c.vault = none)
    (hr : a.receive ≠ 0) (hd : a.amount ≠ 0)
    (hfunds : a.amount ≤ c.makerAtaA) :
    makeOp derive c maker mintA mintB a =
      .ok ({ record := some ((derive (escrowSeeds maker a.seed)).1,
                ⟨a.seed, maker, mintA, mintB, a.receive,
                 (derive (escrowSeeds maker a.seed)).2⟩),
             vault := some a.amount,
             makerAtaA := c.makerAtaA - a.amount, makerAtaB := c.makerAtaB,
             takerAtaA := c.takerAtaA, takerAtaB := c.takerAtaB },
           [.transfer .makerAtaA .vault mintA a.amount (.signer maker)]) := by
  simp [makeOp, hrec, hv, hr, hd, tokenDebit, Nat.not_lt.mpr hfunds]

theorem makeOp_ok_inv (derive : List (List Nat) → Pubkey × Nat) (c : Chain)
    (maker mintA mintB : Pubkey) (a : MakeArgs) (r : Chain × List Effect)
    (h : makeOp derive c maker mintA mintB a = .ok r) :
    r.1.record = some ((derive (escrowSeeds maker a.seed)).1,
      ⟨a.seed, maker, mintA, mintB, a.receive,
       (derive (escrowSeeds maker a.seed)).2⟩) ∧ a.receive ≠ 0 := by
  unfold makeOp at h
  repeat' split at h
  all_goals simp_all [tokenDebit]
  subst h
  simp

theorem takeOp_ok_inv (c : Chain) (tk mk ma mb : Pubkey)
    (r : Chain × List Effect) (h : takeOp c tk mk ma mb = .ok r) :
    r.1.record = none ∧ r.1.vault = none := by
  unfold takeOp at h
  repeat' split at h
  all_goals simp_all
  subst h
  simp

theorem refundOp_ok_inv (c : Chain) (mk ma : Pubkey)
    (r : Chain × List Effect) (h : refundOp c mk ma = .ok r) :
    r.1.record = none ∧ r.1.vault = none := by
  unfold refundOp at h
  repeat' split at h
  all_goals simp_all
  all_goals subst h
  all_goals simp

theorem takeOp_valid_eq (c : Chain) (takerKey makerKey mintAKey mintBKey addr : Pubkey)
    (e : Escrow) (vaultAmt : Nat)
    (hrec : c.record = some (addr, e)) (hv : c.vault = some vaultAmt)
    (hm : e.maker = makerKey) (ha : e.mint_a = mintAKey) (hb : e.mint_b = mintBKey)
    (hfunds : e.receive ≤ c.takerAtaB) :
    takeOp c takerKey makerKey mintAKey mintBKey =
      .ok ({ record := none, vault := none,
             makerAtaA := c.makerAtaA, makerAtaB := c.makerAtaB + e.receive,
             takerAtaA := c.takerAtaA + vaultAmt,
             takerAtaB := c.takerAtaB - e.receive },
           [.transfer .takerAtaB .makerAtaB mintBKey e.receive (.signer takerKey),
            .transfer .vault .takerAtaA mintAKey vaultAmt
              (.pda (takeSignerSeeds makerKey e)),
            .close .vault .makerWallet,
            .close .escrowRecord .makerWallet]) := by
  simp [takeOp, hrec, hv, hm, ha, hb, tokenDebit, tokenClose, Nat.not_lt.mpr hfunds]

theorem refundOp_valid_eq (c : Chain) (makerKey mintAKey addr : Pubkey) (e : Escrow)
    (vaultAmt : Nat) (hrec : c.record = some (addr, e)) (hv : c.vault = some vaultAmt)
    (hm : e.maker = makerKey) (ha : e.mint_a = mintAKey) :
    refundOp c makerKey mintAKey =
      .ok ({ record := none, vault := none,
             makerAtaA := c.makerAtaA + vaultAmt, makerAtaB := c.makerAtaB,
             takerAtaA := c.takerAtaA, takerAtaB := c.takerAtaB },
           (if 0 < vaultAmt then
              [Effect.transfer .vault .makerAtaA mintAKey vaultAmt
                 (.pda (refundSignerSeeds makerKey e))]
            else []) ++
           [.close .vault .makerWallet, .close .escrowRecord .makerWallet]) := by
  by_cases hz : 0 < vaultAmt
  · simp [refundOp, hrec, hv, hm, ha, hz, tokenDebit, tokenClose]
  · have h0 : vaultAmt = 0 := by omega
    subst h0
    simp [refundOp, hrec, hv, hm, ha, tokenClose]

theorem takeOp_ok_checks (c : Chain) (tk mk ma mb addr : Pubkey) (e : Escrow)
    (hrec : c.record = some (addr, e)) (r : Chain × List Effect)
    (h : takeOp c tk mk ma mb = .ok r) :
    e.maker = mk ∧ e.mint_a = ma ∧ e.mint_b = mb ∧ e.receive ≤ c.takerAtaB := by
  have hm : e.maker = mk := by
    by_contra hm
    simp [takeOp, hrec, hm] at h
  have ha : e.mint_a = ma := by
    by_contra ha
    simp [takeOp, hrec, hm, ha] at h
  have hb : e.mint_b = mb := by
    by_contra hb
    simp [takeOp, hrec, hm, ha, hb] at h
  refine ⟨hm, ha, hb, ?_⟩
  by_contra hf
  rw [Nat.not_le] at hf
  rcases hvv : c.vault with _ | vaultAmt
  · simp [takeOp, hrec, hm, ha, hb, hvv] at h
  · simp [takeOp, hrec, hm, ha, hb, hvv, tokenDebit, hf] at h

theorem takeOp_ok_trace (c : Chain) (tk mk ma mb addr : Pubkey) (e : Escrow)
    (vaultAmt : Nat) (hrec : c.record = some (addr, e)) (hv : c.vault = some vaultAmt)
    (r : Chain × List Effect) (h : takeOp c tk mk ma mb = .ok r) :
    e.maker = mk ∧
    r.2 = [.transfer .takerAtaB .makerAtaB mb e.receive (.signer tk),
           .transfer .vault .takerAtaA ma vaultAmt (.pda (takeSignerSeeds mk e)),
           .close .vault .makerWallet, .close .escrowRecord .makerWallet] := by
  obtain ⟨hm, ha, hb, hf⟩ := takeOp_ok_checks c tk mk ma mb addr e hrec r h
  rw [takeOp_valid_eq c tk mk ma mb addr e vaultAmt hrec hv hm ha hb hf] at h
  injection h with h2
  subst h2
  exact ⟨hm, rfl⟩

theorem refundOp_ok_checks (c : Chain) (mk ma addr : Pubkey) (e : Escrow)
    (hrec : c.record = some (addr, e)) (r : Chain × List Effect)
    (h : refundOp c mk ma = .ok r) :
    e.maker = mk ∧ e.mint_a = ma := by
  unfold refundOp at h
  rw [hrec] at h
  repeat' split at h
  all_goals simp_all

theorem refundOp_ok_trace (c : Chain) (mk ma addr : Pubkey) (e : Escrow)
    (vaultAmt : Nat) (hrec : c.record = some (addr, e)) (hv : c.vault = some vaultAmt)
    (r : Chain × List Effect) (h : refundOp c mk ma = .ok r) :
    e.maker = mk ∧
    r.2 = (if 0 < vaultAmt then
             [Effect.transfer .vault .makerAtaA ma vaultAmt
                (.pda (refundSignerSeeds mk e))]
           else []) ++
          [.close .vault .makerWallet, .close .escrowRecord .makerWallet] := by
  obtain ⟨hm, ha⟩ := refundOp_ok_checks c mk ma addr e hrec r h
  rw [refundOp_valid_eq c mk ma addr e vaultAmt hrec hv hm ha] at h
  injection h with h2
  subst h2
  exact ⟨hm, rfl⟩

/-- A fixed stand-in for the external derivation service, used by the
    concrete witness statements. -/
def derive0 : List (List Nat) → Pubkey × Nat := fun _ => (7, 254)

/-- A concrete escrow record used by the witness statements. -/
def eLive : Escrow := ⟨1, 10, 20, 30, 500, 254⟩

/-- A pre-state holding eLive with a funded vault. -/
def cLive : Chain := ⟨some (7, eLive), some 1000, 40, 41, 42, 600⟩

/-- A pre-state holding eLive with an empty vault. -/
def cLive0 : Chain := ⟨some (7, eLive), some 0, 40, 41, 42, 600⟩

/-- A pre-state with no record and no vault. -/
def cEmpty : Chain := ⟨none, none, 100, 0, 0, 0⟩

/-- Claim C1: a valid take call first transfers exactly receive units of
    asset B from the taker to the maker, then transfers the entire
    current vault balance, whatever it is at call time, to the taker
    under the derived authority of the escrow, then closes the vault and
    then the record, crediting both storage refunds to the maker;
    afterwards neither the record nor the vault exists. -/
theorem take_fulfill_effects (c : Chain)
    (takerKey makerKey mintAKey mintBKey addr : Pubkey) (e : Escrow)
    (vaultAmt : Nat)
    (hrec : c.record = some (addr, e)) (hv : c.vault = some vaultAmt)
    (hm : e.maker = makerKey) (ha : e.mint_a = mintAKey)
    (hb : e.mint_b = mintBKey) (hfunds : e.receive ≤ c.takerAtaB) :
    takeOp c takerKey makerKey mintAKey mintBKey =
      .ok ({ record := none, vault := none,
             makerAtaA := c.makerAtaA, makerAtaB := c.makerAtaB + e.receive,
             takerAtaA := c.takerAtaA + vaultAmt,
             takerAtaB := c.takerAtaB - e.receive },
           [.transfer .takerAtaB .makerAtaB mintBKey e.receive
              (.signer takerKey),
            .transfer .vault .takerAtaA mintAKey vaultAmt
              (.pda (takeSignerSeeds makerKey e)),
            .close .vault .makerWallet,
            .close .escrowRecord .makerWallet]) :=
  takeOp_valid_eq c takerKey makerKey mintAKey mintBKey addr e vaultAmt
    hrec hv hm ha hb hfunds

/-- Witness for C1 on a concrete funded escrow. -/
theorem take_fulfill_effects_witness :
    takeOp cLive 99 10 20 30 =
      .ok ({ record := none, vault := none, makerAtaA := 40, makerAtaB := 541,
             takerAtaA := 1042, takerAtaB := 100 },
           [.transfer .takerAtaB .makerAtaB 30 500 (.signer 99),
            .transfer .vault .takerAtaA 20 1000 (.pda (takeSignerSeeds 10 eLive)),
            .close .vault .makerWallet,
            .close .escrowRecord .makerWallet]) :=
  take_fulfill_effects cLive 99 10 20 30 7 eLive 1000 rfl rfl rfl rfl rfl
    (by decide)

/-- Claim C2: a valid make call succeeds, leaves the vault holding exactly
    the deposit amount, stores exactly the inputs in the record fields
    with the bump from the derivation, and the record address is the
    derivation of (maker, seed) alone, so a second successful make with
    the same maker and seed yields the same address and the same bump. -/
theorem make_create_post (derive : List (List Nat) → Pubkey × Nat) (c : Chain)
    (maker mintA mintB : Pubkey) (a : MakeArgs)
    (hrec : c.record = none) (hv : c.vault = none)
    (hr : a.receive ≠ 0) (hd : a.amount ≠ 0)
    (hfunds : a.amount ≤ c.makerAtaA) :
    makeOp derive c maker mintA mintB a =
      .ok ({ record := some ((derive (escrowSeeds maker a.seed)).1,
                ⟨a.seed, maker, mintA, mintB, a.receive,
                 (derive (escrowSeeds maker a.seed)).2⟩),
             vault := some a.amount,
             makerAtaA := c.makerAtaA - a.amount, makerAtaB := c.makerAtaB,
             takerAtaA := c.takerAtaA, takerAtaB := c.takerAtaB },
           [.transfer .makerAtaA .vault mintA a.amount (.signer maker)]) ∧
    ∀ (c2 : Chain) (mintA2 mintB2 : Pubkey) (a2 : MakeArgs)
      (r r2 : Chain × List Effect),
      makeOp derive c maker mintA mintB a = .ok r →
      makeOp derive c2 maker mintA2 mintB2 a2 = .ok r2 →
      a2.seed = a.seed →
      ∃ addr bump e e2, r.1.record = some (addr, e) ∧
        r2.1.record = some (addr, e2) ∧ e.bump = bump ∧ e2.bump = bump := by
  refine ⟨makeOp_ok derive c maker mintA mintB a hrec hv hr hd hfunds, ?_⟩
  intro c2 mintA2 mintB2 a2 r r2 h h2 hseed
  obtain ⟨h1, -⟩ := makeOp_ok_inv derive c maker mintA mintB a r h
  obtain ⟨h3, -⟩ := makeOp_ok_inv derive c2 maker mintA2 mintB2 a2 r2 h2
  rw [hseed] at h3
  exact ⟨_, _, _, _, h1, h3, rfl, rfl⟩

/-- Witness for C2 on a concrete make call. -/
theorem make_create_post_witness :
    makeOp derive0 cEmpty 10 20 30 ⟨1, 500, 100⟩ =
      .ok ({ record := some (7, ⟨1, 10, 20, 30, 500, 254⟩),
             vault := some 100, makerAtaA := 0, makerAtaB := 0,
             takerAtaA := 0, takerAtaB := 0 },
           [.transfer .makerAtaA .vault 20 100 (.signer 10)]) :=
  (make_create_post derive0 cEmpty 10 20 30 ⟨1, 500, 100⟩ rfl rfl
    (by decide) (by decide) (by decide)).1

/-- Claim C3: supplying a maker different from the stored maker fails the
    take call with InvalidMaker, a wrong asset A mint fails it with
    InvalidMintA, a wrong asset B mint fails it with InvalidMintB; the
    checks run in that order before any transfer, so the error is raised
    whatever the balances are, and an aborted call moves no balance. -/
theorem take_check_errors (c : Chain)
    (takerKey makerKey mintAKey mintBKey addr : Pubkey) (e : Escrow)
    (hrec : c.record = some (addr, e)) :
    (e.maker ≠ makerKey →
      takeOp c takerKey makerKey mintAKey mintBKey =
        .error (.program .InvalidMaker) ∧
      applyTake c takerKey makerKey mintAKey mintBKey = c) ∧
    (e.maker = makerKey → e.mint_a ≠ mintAKey →
      takeOp c takerKey makerKey mintAKey mintBKey =
        .error (.program .InvalidMintA) ∧
      applyTake c takerKey makerKey mintAKey mintBKey = c) ∧
    (e.maker = makerKey → e.mint_a = mintAKey → e.mint_b ≠ mintBKey →
      takeOp c takerKey makerKey mintAKey mintBKey =
        .error (.program .InvalidMintB) ∧
      applyTake c takerKey makerKey mintAKey mintBKey = c) := by
  refine ⟨fun h1 => ?_, fun h1 h2 => ?_, fun h1 h2 h3 => ?_⟩
  · have ht : takeOp c takerKey makerKey mintAKey mintBKey =
        .error (.program .InvalidMaker) := by
      simp [takeOp, hrec, h1]
    exact ⟨ht, by simp [applyTake, ht]⟩
  · have ht : takeOp c takerKey makerKey mintAKey mintBKey =
        .error (.program .InvalidMintA) := by
      simp [takeOp, hrec, h1, h2]
    exact ⟨ht, by simp [applyTake, ht]⟩
  · have ht : takeOp c takerKey makerKey mintAKey mintBKey =
        .error (.program .InvalidMintB) := by
      simp [takeOp, hrec, h1, h2, h3]
    exact ⟨ht, by simp [applyTake, ht]⟩

/-- Witness for C3: a wrong maker on a concrete state aborts with
    InvalidMaker and the state is untouched. -/
theorem take_check_errors_witness :
    takeOp cLive 99 11 20 30 = .error (.program .InvalidMaker) ∧
    applyTake cLive 99 11 20 30 = cLive :=
  (take_check_errors cLive 99 11 20 30 7 eLive rfl).1 (by decide)

/-- Claim C4: a valid refund call transfers the full current vault
    balance back to the maker under the derived authority when that
    balance is positive and attempts no transfer when it is zero, and in
    both cases closes the vault and the record unconditionally with
    their storage credit going to the maker; a zero-balance vault closes
    cleanly. -/
theorem refund_cancel_effects (c : Chain) (makerKey mintAKey addr : Pubkey)
    (e : Escrow) (vaultAmt : Nat)
    (hrec : c.record = some (addr, e)) (hv : c.vault = some vaultAmt)
    (hm : e.maker = makerKey) (ha : e.mint_a = mintAKey) :
    refundOp c makerKey mintAKey =
      .ok ({ record := none, vault := none,
             makerAtaA := c.makerAtaA + vaultAmt, makerAtaB := c.makerAtaB,
             takerAtaA := c.takerAtaA, takerAtaB := c.takerAtaB },
           (if 0 < vaultAmt then
              [Effect.transfer .vault .makerAtaA mintAKey vaultAmt
                 (.pda (refundSignerSeeds makerKey e))]
            else []) ++
           [.close .vault .makerWallet, .close .escrowRecord .makerWallet]) :=
  refundOp_valid_eq c makerKey mintAKey addr e vaultAmt hrec hv hm ha

/-- Witness for C4 on a concrete funded escrow. -/
theorem refund_cancel_effects_witness :
    refundOp cLive 10 20 =
      .ok ({ record := none, vault := none, makerAtaA := 1040, makerAtaB := 41,
             takerAtaA := 42, takerAtaB := 600 },
           [.transfer .vault .makerAtaA 20 1000 (.pda (refundSignerSeeds 10 eLive)),
            .close .vault .makerWallet, .close .escrowRecord .makerWallet]) :=
  refund_cancel_effects cLive 10 20 7 eLive 1000 rfl rfl rfl rfl

/-- Claim C5: a make call with a zero receive amount or a zero deposit
    amount aborts with InvalidAmount, the state is unchanged, and no
    record and no vault exist afterwards. -/
theorem make_invalid_amount (derive : List (List Nat) → Pubkey × Nat)
    (c : Chain) (maker mintA mintB : Pubkey) (a : MakeArgs)
    (hrec : c.record = none) (hv : c.vault = none)
    (hz : a.receive = 0 ∨ a.amount = 0) :
    makeOp derive c maker mintA mintB a = .error (.program .InvalidAmount) ∧
    applyMake derive c maker mintA mintB a = c ∧
    (applyMake derive c maker mintA mintB a).record = none ∧
    (applyMake derive c maker mintA mintB a).vault = none := by
  have ht : makeOp derive c maker mintA mintB a =
      .error (.program .InvalidAmount) := by
    rcases hz with hz | hz
    · simp [makeOp, hrec, hv, hz]
    · by_cases hr : a.receive = 0 <;> simp [makeOp, hrec, hv, hz, hr]
  refine ⟨ht, ?_, ?_, ?_⟩ <;> simp [applyMake, ht, hrec, hv]

/-- Witness for C5: a concrete make call with receive zero. -/
theorem make_invalid_amount_witness :
    makeOp derive0 cEmpty 10 20 30 ⟨1, 0, 100⟩ =
      .error (.program .InvalidAmount) ∧
    applyMake derive0 cEmpty 10 20 30 ⟨1, 0, 100⟩ = cEmpty ∧
    (applyMake derive0 cEmpty 10 20 30 ⟨1, 0, 100⟩).record = none ∧
    (applyMake derive0 cEmpty 10 20 30 ⟨1, 0, 100⟩).vault = none :=
  make_invalid_amount derive0 cEmpty 10 20 30 ⟨1, 0, 100⟩ rfl rfl (Or.inl rfl)

/-- Claim C6: the record address is derived from exactly the namespace
    tag, the maker identity and the little-endian seed bytes plus the
    bump: make derives the address and bump from that seed list, and
    take and refund rebuild the identical list with the stored bump,
    both in the account constraint re-checking the record address and as
    the signing authority for the transfers out of the vault. -/
theorem derivation_consistent (derive : List (List Nat) → Pubkey × Nat) :
    (∀ (c : Chain) (maker mintA mintB : Pubkey) (a : MakeArgs)
       (r : Chain × List Effect),
      makeOp derive c maker mintA mintB a = .ok r →
      r.1.record = some ((derive (escrowSeeds maker a.seed)).1,
        ⟨a.seed, maker, mintA, mintB, a.receive,
         (derive (escrowSeeds maker a.seed)).2⟩)) ∧
    (∀ (makerKey : Pubkey) (e : Escrow), e.maker = makerKey →
      constraintSeedsWithBump makerKey e =
        escrowSeeds e.maker e.seed ++ [[e.bump]] ∧
      takeSignerSeeds makerKey e = escrowSeeds e.maker e.seed ++ [[e.bump]] ∧
      refundSignerSeeds makerKey e = escrowSeeds e.maker e.seed ++ [[e.bump]]) ∧
    (∀ (c : Chain) (tk mk ma mb addr : Pubkey) (e : Escrow) (vaultAmt : Nat)
       (r : Chain × List Effect),
      c.record = some (addr, e) → c.vault = some vaultAmt →
      takeOp c tk mk ma mb = .ok r →
      Effect.transfer .vault .takerAtaA ma vaultAmt
        (.pda (escrowSeeds e.maker e.seed ++ [[e.bump]])) ∈ r.2) ∧
    (∀ (c : Chain) (mk ma addr : Pubkey) (e : Escrow) (vaultAmt : Nat)
       (r : Chain × List Effect),
      c.record = some (addr, e) → c.vault = some vaultAmt → 0 < vaultAmt →
      refundOp c mk ma = .ok r →
      Effect.transfer .vault .makerAtaA ma vaultAmt
        (.pda (escrowSeeds e.maker e.seed ++ [[e.bump]])) ∈ r.2) := by
  refine ⟨?_, ?_, ?_, ?_⟩
  · intro c maker mintA mintB a r h
    exact (makeOp_ok_inv derive c maker mintA mintB a r h).1
  · intro mk e hm
    refine ⟨?_, ?_, ?_⟩ <;>
      simp [constraintSeedsWithBump, takeSignerSeeds, refundSignerSeeds,
        escrowSeeds, hm]
  · intro c tk mk ma mb addr e vaultAmt r hrec hv h
    obtain ⟨hm, htr⟩ := takeOp_ok_trace c tk mk ma mb addr e vaultAmt hrec hv r h
    rw [htr]
    simp [takeSignerSeeds, escrowSeeds, hm]
  · intro c mk ma addr e vaultAmt r hrec hv hz h
    obtain ⟨hm, htr⟩ := refundOp_ok_trace c mk ma addr e vaultAmt hrec hv r h
    rw [htr]
    simp [refundSignerSeeds, escrowSeeds, hz, hm]

/-- Witness for C6 on a concrete record. -/
theorem derivation_consistent_witness :
    constraintSeedsWithBump 10 eLive =
      escrowSeeds eLive.maker eLive.seed ++ [[eLive.bump]] ∧
    takeSignerSeeds 10 eLive =
      escrowSeeds eLive.maker eLive.seed ++ [[eLive.bump]] ∧
    refundSignerSeeds 10 eLive =
      escrowSeeds eLive.maker eLive.seed ++ [[eLive.bump]] :=
  (derivation_consistent derive0).2.1 10 eLive rfl

/-- Claim C7: every reachable record was produced by a successful make,
    which enforces a positive receive amount, and no operation mutates
    the stored fields afterwards (take and refund only destroy the
    record), so the stored receive field of any live record is strictly
    positive for its entire lifetime. -/
theorem record_receive_positive (derive : List (List Nat) → Pubkey × Nat)
    (c : Chain) (h : Reach derive c) :
    ∀ (addr : Pubkey) (e : Escrow), c.record = some (addr, e) →
      0 < e.receive := by
  induction h with
  | start mA mB tA tB =>
    intro addr e hrec
    simp at hrec
  | make c maker mintA mintB a hc ih =>
    intro addr e hrec
    unfold applyMake at hrec
    split at hrec
    next r hmk =>
      obtain ⟨h1, h2⟩ := makeOp_ok_inv derive c maker mintA mintB a r hmk
      rw [h1] at hrec
      simp only [Option.some.injEq, Prod.mk.injEq] at hrec
      rcases hrec with ⟨-, he⟩
      subst he
      simpa using Nat.pos_of_ne_zero h2
    next er hmk =>
      exact ih addr e hrec
  | take c tk mk ma mb hc ih =>
    intro addr e hrec
    unfold applyTake at hrec
    split at hrec
    next r hmk =>
      rw [(takeOp_ok_inv c tk mk ma mb r hmk).1] at hrec
      simp at hrec
    next er hmk =>
      exact ih addr e hrec
  | refund c mk ma hc ih =>
    intro addr e hrec
    unfold applyRefund at hrec
    split at hrec
    next r hmk =>
      rw [(refundOp_ok_inv c mk ma r hmk).1] at hrec
      simp at hrec
    next er hmk =>
      exact ih addr e hrec

/-- Witness for C7: one make step from an empty state yields a record
    with a positive receive field. -/
theorem record_receive_positive_witness :
    0 < (Escrow.mk 1 10 20 30 500 254).receive :=
  record_receive_positive derive0 _
    (Reach.make cEmpty 10 20 30 ⟨1, 500, 100⟩ (Reach.start 100 0 0 0)) 7
    (Escrow.mk 1 10 20 30 500 254) (by decide)

/-- Claim C9: take has no zero-balance guard: on a vault holding zero it
    still issues the vault-to-taker transfer, with amount zero, before
    closing the vault, while refund on the same situation skips the
    transfer entirely. -/
theorem take_no_zero_amount_guard (c c2 : Chain)
    (takerKey makerKey mintAKey mintBKey addr : Pubkey) (e : Escrow)
    (mk2 ma2 addr2 : Pubkey) (e2 : Escrow)
    (hrec : c.record = some (addr, e)) (hv : c.vault = some 0)
    (hm : e.maker = makerKey) (ha : e.mint_a = mintAKey)
    (hb : e.mint_b = mintBKey) (hfunds : e.receive ≤ c.takerAtaB)
    (hrec2 : c2.record = some (addr2, e2)) (hv2 : c2.vault = some 0)
    (hm2 : e2.maker = mk2) (ha2 : e2.mint_a = ma2) :
    takeOp c takerKey makerKey mintAKey mintBKey =
      .ok ({ record := none, vault := none,
             makerAtaA := c.makerAtaA, makerAtaB := c.makerAtaB + e.receive,
             takerAtaA := c.takerAtaA, takerAtaB := c.takerAtaB - e.receive },
           [.transfer .takerAtaB .makerAtaB mintBKey e.receive
              (.signer takerKey),
            .transfer .vault .takerAtaA mintAKey 0
              (.pda (takeSignerSeeds makerKey e)),
            .close .vault .makerWallet,
            .close .escrowRecord .makerWallet]) ∧
    refundOp c2 mk2 ma2 =
      .ok ({ record := none, vault := none,
             makerAtaA := c2.makerAtaA, makerAtaB := c2.makerAtaB,
             takerAtaA := c2.takerAtaA, takerAtaB := c2.takerAtaB },
           [.close .vault .makerWallet, .close .escrowRecord .makerWallet]) := by
  constructor
  · have h1 := takeOp_valid_eq c takerKey makerKey mintAKey mintBKey addr e 0
      hrec hv hm ha hb hfunds
    simpa using h1
  · have h2 := refundOp_valid_eq c2 mk2 ma2 addr2 e2 0 hrec2 hv2 hm2 ha2
    simpa using h2

/-- Witness for C9 on a concrete empty-vault escrow. -/
theorem take_no_zero_amount_guard_witness :
    takeOp cLive0 99 10 20 30 =
      .ok ({ record := none, vault := none, makerAtaA := 40, makerAtaB := 541,
             takerAtaA := 42, takerAtaB := 100 },
           [.transfer .takerAtaB .makerAtaB 30 500 (.signer 99),
            .transfer .vault .takerAtaA 20 0 (.pda (takeSignerSeeds 10 eLive)),
            .close .vault .makerWallet,
            .close .escrowRecord .makerWallet]) ∧
    refundOp cLive0 10 20 =
      .ok ({ record := none, vault := none, makerAtaA := 40, makerAtaB := 41,
             takerAtaA := 42, takerAtaB := 600 },
           [.close .vault .makerWallet, .close .escrowRecord .makerWallet]) :=
  take_no_zero_amount_guard cLive0 cLive0 99 10 20 30 7 eLive 10 20 7 eLive
    rfl rfl rfl rfl rfl (by decide) rfl rfl rfl rfl

/-- Claim C10: make imposes no distinctness constraint between the two
    mints: with one mint M supplied for both sides and positive amounts,
    the call succeeds and creates a record with mint_a = mint_b = M. -/
theorem make_same_mint_ok (derive : List (List Nat) → Pubkey × Nat)
    (c : Chain) (maker M : Pubkey) (a : MakeArgs)
    (hrec : c.record = none) (hv : c.vault = none)
    (hr : a.receive ≠ 0) (hd : a.amount ≠ 0)
    (hfunds : a.amount ≤ c.makerAtaA) :
    makeOp derive c maker M M a =
      .ok ({ record := some ((derive (escrowSeeds maker a.seed)).1,
                ⟨a.seed, maker, M, M, a.receive,
                 (derive (escrowSeeds maker a.seed)).2⟩),
             vault := some a.amount,
             makerAtaA := c.makerAtaA - a.amount, makerAtaB := c.makerAtaB,
             takerAtaA := c.takerAtaA, takerAtaB := c.takerAtaB },
           [.transfer .makerAtaA .vault M a.amount (.signer maker)]) :=
  makeOp_ok derive c maker M M a hrec hv hr hd hfunds

/-- Witness for C10: a concrete make exchanging mint 20 for itself. -/
theorem make_same_mint_ok_witness :
    makeOp derive0 cEmpty 10 20 20 ⟨1, 500, 100⟩ =
      .ok ({ record := some (7, ⟨1, 10, 20, 20, 500, 254⟩),
             vault := some 100, makerAtaA := 0, makerAtaB := 0,
             takerAtaA := 0, takerAtaB := 0 },
           [.transfer .makerAtaA .vault 20 100 (.signer 10)]) :=
  make_same_mint_ok derive0 cEmpty 10 20 ⟨1, 500, 100⟩ rfl rfl (by decide)
    (by decide) (by decide)

/-- Claim C8: the persisted record encoding is exactly 114 bytes, laid
    out as a 1-byte record-type tag with value 1, an 8-byte little-endian
    seed, the 32-byte maker identity, the 32-byte asset A identifier, the
    32-byte asset B identifier, an 8-byte little-endian receive amount
    and a 1-byte derivation bump. -/
theorem escrow_record_encoding (e : Escrow) (h : e.wf) :
    (serializeEscrow e).length = 114 ∧
    (serializeEscrow e).take 1 = [1] ∧
    ((serializeEscrow e).drop 1).take 8 = leBytes 8 e.seed ∧
    leVal (((serializeEscrow e).drop 1).take 8) = e.seed ∧
    ((serializeEscrow e).drop 9).take 32 = pubkeyBytes e.maker ∧
    ((serializeEscrow e).drop 41).take 32 = pubkeyBytes e.mint_a ∧
    ((serializeEscrow e).drop 73).take 32 = pubkeyBytes e.mint_b ∧
    ((serializeEscrow e).drop 105).take 8 = leBytes 8 e.receive ∧
    leVal (((serializeEscrow e).drop 105).take 8) = e.receive ∧
    (serializeEscrow e).drop 113 = [e.bump] := by
  obtain ⟨hsd, hmk, hm1, hm2, hrc, hbp⟩ := h
  have hs : serializeEscrow e =
      [1] ++ (leBytes 8 e.seed ++ (pubkeyBytes e.maker ++ (pubkeyBytes e.mint_a ++
        (pubkeyBytes e.mint_b ++ (leBytes 8 e.receive ++ leBytes 1 e.bump))))) := by
    simp [serializeEscrow]
  have d1 : (serializeEscrow e).drop 1 =
      leBytes 8 e.seed ++ (pubkeyBytes e.maker ++ (pubkeyBytes e.mint_a ++
        (pubkeyBytes e.mint_b ++ (leBytes 8 e.receive ++ leBytes 1 e.bump)))) := by
    rw [hs]
    exact List.drop_left' rfl
  have d9 : (serializeEscrow e).drop 9 =
      pubkeyBytes e.maker ++ (pubkeyBytes e.mint_a ++
        (pubkeyBytes e.mint_b ++ (leBytes 8 e.receive ++ leBytes 1 e.bump))) := by
    rw [show (9 : Nat) = 1 + 8 from rfl, ← List.drop_drop, d1]
    exact List.drop_left' (leBytes_length 8 e.seed)
  have d41 : (serializeEscrow e).drop 41 =
      pubkeyBytes e.mint_a ++
        (pubkeyBytes e.mint_b ++ (leBytes 8 e.receive ++ leBytes 1 e.bump)) := by
    rw [show (41 : Nat) = 9 + 32 from rfl, ← List.drop_drop, d9]
    exact List.drop_left' (leBytes_length 32 e.maker)
  have d73 : (serializeEscrow e).drop 73 =
      pubkeyBytes e.mint_b ++ (leBytes 8 e.receive ++ leBytes 1 e.bump) := by
    rw [show (73 : Nat) = 41 + 32 from rfl, ← List.drop_drop, d41]
    exact List.drop_left' (leBytes_length 32 e.mint_a)
  have d105 : (serializeEscrow e).drop 105 =
      leBytes 8 e.receive ++ leBytes 1 e.bump := by
    rw [show (105 : Nat) = 73 + 32 from rfl, ← List.drop_drop, d73]
    exact List.drop_left' (leBytes_length 32 e.mint_b)
  have d113 : (serializeEscrow e).drop 113 = leBytes 1 e.bump := by
    rw [show (113 : Nat) = 105 + 8 from rfl, ← List.drop_drop, d105]
    exact List.drop_left' (leBytes_length 8 e.receive)
  have tseed : ((serializeEscrow e).drop 1).take 8 = leBytes 8 e.seed := by
    rw [d1]
    exact List.take_left' (leBytes_length 8 e.seed)
  have trec : ((serializeEscrow e).drop 105).take 8 = leBytes 8 e.receive := by
    rw [d105]
    exact List.take_left' (leBytes_length 8 e.receive)
  refine ⟨?_, ?_, tseed, ?_, ?_, ?_, ?_, trec, ?_, ?_⟩
  · rw [hs]
    simp [pubkeyBytes, leBytes_length]
  · rw [hs]
    exact List.take_left' rfl
  · rw [tseed]
    exact leVal_leBytes 8 e.seed
      (by rw [show (256 : Nat) ^ 8 = 2 ^ 64 from by norm_num]; exact hsd)
  · rw [d9]
    exact List.take_left' (leBytes_length 32 e.maker)
  · rw [d41]
    exact List.take_left' (leBytes_length 32 e.mint_a)
  · rw [d73]
    exact List.take_left' (leBytes_length 32 e.mint_b)
  · rw [trec]
    exact leVal_leBytes 8 e.receive
      (by rw [show (256 : Nat) ^ 8 = 2 ^ 64 from by norm_num]; exact hrc)
  · rw [d113]
    simp [leBytes, Nat.mod_eq_of_lt (show e.bump < 256 from hbp)]

/-- Witness for C8 on a concrete well-formed record. -/
theorem escrow_record_encoding_witness :
    (serializeEscrow ⟨1, 2, 3, 4, 5, 6⟩).length = 114 ∧
    (serializeEscrow ⟨1, 2, 3, 4, 5, 6⟩).take 1 = [1] ∧
    ((serializeEscrow ⟨1, 2, 3, 4, 5, 6⟩).drop 1).take 8 = leBytes 8 1 ∧
    leVal (((serializeEscrow ⟨1, 2, 3, 4, 5, 6⟩).drop 1).take 8) = 1 ∧
    ((serializeEscrow ⟨1, 2, 3, 4, 5, 6⟩).drop 9).take 32 = pubkeyBytes 2 ∧
    ((serializeEscrow ⟨1, 2, 3, 4, 5, 6⟩).drop 41).take 32 = pubkeyBytes 3 ∧
    ((serializeEscrow ⟨1, 2, 3, 4, 5, 6⟩).drop 73).take 32 = pubkeyBytes 4 ∧
    ((serializeEscrow ⟨1, 2, 3, 4, 5, 6⟩).drop 105).take 8 = leBytes 8 5 ∧
    leVal (((serializeEscrow ⟨1, 2, 3, 4, 5, 6⟩).drop 105).take 8) = 5 ∧
    (serializeEscrow ⟨1, 2, 3, 4, 5, 6⟩).drop 113 = [6] :=
  escrow_record_encoding ⟨1, 2, 3, 4, 5, 6⟩ (by constructor <;> norm_num)

end EscrowSpec
